import Mathlib

/-!
Verification of the control-plane SDK in src/agent/sdk.ts (class BotSDK).

The class is embedded as a small-step transition system: `SDKState` holds the
mutable fields of the class, `SDKEvent` enumerates the external stimuli
(API calls, socket callbacks, timer fires, inbound messages), and
`stepSDK` performs the synchronous state update each stimulus triggers in the
source, emitting the list of promise settlements (resolve/reject of pending
action futures) that the update performs.  Under the cooperative
single-threaded execution model of the source, each such synchronous block
runs atomically, so a run of the system is a fold of `stepSDK` over a list of
events.

Modelling conventions:
  - JS timers are represented by events that are enabled exactly when the
    corresponding timer is still scheduled.  Every code path that removes a
    PendingAction also calls clearTimeout on its timer, so the per-action
    deadline timer is scheduled iff the id is in the pending map; the
    `actionTimeoutFire` event is therefore guarded by membership.
  - `ws.close()` guarantees a later close event on that socket and no further
    messages from it, so the close handler body is folded into the step that
    calls close() (`disconnectCall`), and a spontaneous `socketClose` event
    models the transport dropping.
  - Promise settlements are recorded as `(actionId, SettleKind)` pairs; the
    `SettleKind` names the concrete Error the source constructs.
  - The snapshot payload is opaque to the SDK (stored and forwarded, never
    inspected), so it is modelled by a single tick field.
-/

/-- Snapshot pushed by the simulation; sdk.ts stores and forwards it without
inspecting it, so a single field suffices. -/
structure BotWorldState where
  tick : Nat
deriving DecidableEq, Repr

/-- Result payload carried by an sdk_action_result message; opaque to the SDK. -/
structure ActionResult where
  ok : Bool
deriving DecidableEq, Repr

/-- The four values of the ConnectionState union type in sdk.ts. -/
inductive ConnectionState
  | disconnected
  | connecting
  | connected
  | reconnecting
deriving DecidableEq, Repr

/-- Readiness of the WebSocket handle: created but not yet open, or open.
`isConnected()` in the source checks ws !== null && readyState === OPEN. -/
inductive WsState
  | connecting
  | opened
deriving DecidableEq, Repr

/-- Configuration fields of SDKConfig that the verified behaviour depends on.
reconnectMaxRetries defaults to Infinity in the source; `none` models that
(the check attempt >= Infinity is always false). -/
structure SDKConfig where
  autoReconnect : Bool
  reconnectMaxRetries : Option Nat
  reconnectBaseDelay : Nat
  reconnectMaxDelay : Nat
  actionTimeout : Nat
deriving DecidableEq, Repr

/-- Defaults from the SDKConfig constructor: autoReconnect true, max retries
Infinity, base delay 1000ms, max delay 30000ms, action timeout 30000ms. -/
def defaultConfig : SDKConfig :=
  { autoReconnect := true
    reconnectMaxRetries := none
    reconnectBaseDelay := 1000
    reconnectMaxDelay := 30000
    actionTimeout := 30000 }

/-- Mutable fields of the BotSDK class.  `connectPromise` records whether the
field of that name is non-null, `handshakePending` whether the checkConnected
listener registered by connect() is still attached, and `pendingActions` the
keys of the pending-action Map in insertion order (the resolver closures are
represented by the settlement events the steps emit). -/
structure SDKState where
  ws : Option WsState
  connectionState : ConnectionState
  reconnectAttempt : Nat
  reconnectTimer : Option Nat
  intentionalDisconnect : Bool
  connectPromise : Bool
  handshakePending : Bool
  pendingActions : List String
  state : Option BotWorldState
deriving DecidableEq, Repr

/-- Field initializers of the BotSDK class. -/
def initialState : SDKState :=
  { ws := none
    connectionState := .disconnected
    reconnectAttempt := 0
    reconnectTimer := none
    intentionalDisconnect := false
    connectPromise := false
    handshakePending := false
    pendingActions := []
    state := none }

/-- How a pending-action future is settled, naming the Error the source
constructs on each path. -/
inductive SettleKind
  | resolvedWithResult
  | rejectedNoResult
  | rejectedServerError
  | rejectedActionTimeout
  | rejectedConnectionClosed
  | rejectedNotConnected
deriving DecidableEq, Repr

/-- Settlement record: which action id was settled and how. -/
abbrev Settlement := String × SettleKind

/-- Inbound message after JSON.parse, discriminated on its type field the way
handleMessage does; fields the source reads are Options because the parsed
object may lack them.  Any other type value is `otherType`. -/
inductive InboundMessage
  | sdkState (st : Option BotWorldState)
  | sdkActionResult (actionId : Option String) (result : Option ActionResult)
  | sdkError (actionId : Option String) (error : Option String)
  | otherType
deriving DecidableEq, Repr

/-- isConnected() from the source: ws !== null && readyState === OPEN. -/
def isConnected (st : SDKState) : Bool :=
  st.ws = some .opened

/-- Map.delete on the pending-action map (keys are unique, so filtering the
key list is the removal of that key). -/
def deleteAction (pending : List String) (id : String) : List String :=
  pending.filter (fun x => x ≠ id)

/-- Map.set on the pending-action map: inserting an existing key overwrites in
place, a fresh key is appended (JS Map preserves insertion order). -/
def insertAction (pending : List String) (id : String) : List String :=
  if id ∈ pending then pending else pending ++ [id]

/-- handleMessage from sdk.ts.  The argument is the result of JSON.parse:
`none` is the parse failure swallowed by the catch block, `some` a parsed
value on which the property accesses are safe.  Returns the updated state and
the settlements performed.  One successful parse is outside this type: the
raw string whose parse result is JSON null, on which the source throws an
uncaught TypeError at the message.type access; that abrupt path is modelled
by `ParsedInbound` and `handleRawMessage` below and cannot reach the
branches here (the throw happens before any state access), so the machine
steps built on this function are unaffected. -/
def handleMessage (st : SDKState) (parsed : Option InboundMessage) :
    SDKState × List Settlement :=
  match parsed with
  | none => (st, [])
  | some msg =>
    match msg with
    | .sdkState s =>
      match s with
      | some snapshot => ({ st with state := some snapshot }, [])
      | none => (st, [])
    | .sdkActionResult actionId result =>
      match actionId with
      | some id =>
        if id ∈ st.pendingActions then
          ({ st with pendingActions := deleteAction st.pendingActions id },
            [(id, match result with
                  | some _ => SettleKind.resolvedWithResult
                  | none => SettleKind.rejectedNoResult)])
        else (st, [])
      | none => (st, [])
    | .sdkError actionId _error =>
      match actionId with
      | some id =>
        if id ∈ st.pendingActions then
          ({ st with pendingActions := deleteAction st.pendingActions id },
            [(id, SettleKind.rejectedServerError)])
        else (st, [])
      | none => (st, [])
    | .otherType => (st, [])

/-- Exponential backoff delay computed in scheduleReconnect:
Math.min(reconnectBaseDelay * 2^(attempt-1), reconnectMaxDelay). -/
def backoffDelay (cfg : SDKConfig) (attempt : Nat) : Nat :=
  min (cfg.reconnectBaseDelay * 2 ^ (attempt - 1)) cfg.reconnectMaxDelay

/-- Guard at the top of scheduleReconnect:
this.reconnectAttempt >= this.config.reconnectMaxRetries, where the default
maxRetries is Infinity (so the comparison is then always false). -/
def exceededMaxRetries (cfg : SDKConfig) (attempt : Nat) : Bool :=
  match cfg.reconnectMaxRetries with
  | none => false
  | some m => m ≤ attempt

/-- scheduleReconnect from sdk.ts: give up (state disconnected) once the
attempt counter has reached the configured maximum, otherwise increment the
counter, enter reconnecting, and schedule the retry timer with the backoff
delay. -/
def scheduleReconnect (cfg : SDKConfig) (st : SDKState) : SDKState :=
  if exceededMaxRetries cfg st.reconnectAttempt then
    { st with connectionState := .disconnected }
  else
    { st with
        reconnectAttempt := st.reconnectAttempt + 1
        connectionState := .reconnecting
        reconnectTimer := some (backoffDelay cfg (st.reconnectAttempt + 1)) }

/-- Body of the ws.onclose handler: null out connectPromise and ws (the
checkConnected listener dies with the socket), reject every pending action
with the connection-closed Error and clear the map, then either schedule a
reconnect or transition to disconnected. -/
def onCloseBody (cfg : SDKConfig) (st : SDKState) : SDKState × List Settlement :=
  let settlements := st.pendingActions.map
    (fun id => (id, SettleKind.rejectedConnectionClosed))
  let st1 : SDKState :=
    { st with
        connectPromise := false
        ws := none
        handshakePending := false
        pendingActions := [] }
  if cfg.autoReconnect && !st1.intentionalDisconnect then
    (scheduleReconnect cfg st1, settlements)
  else
    ({ st1 with connectionState := .disconnected }, settlements)

/-- Synchronous body of connect(): return if the socket is already open,
share an in-flight attempt, otherwise clear the intentional-disconnect flag,
enter connecting unless already reconnecting, create the socket and register
the handshake listener. -/
def connectBody (st : SDKState) : SDKState :=
  if isConnected st then st
  else if st.connectPromise then st
  else
    let st1 : SDKState := { st with intentionalDisconnect := false }
    let st2 : SDKState :=
      if st1.connectionState = .reconnecting then st1
      else { st1 with connectionState := .connecting }
    { st2 with ws := some .connecting, connectPromise := true, handshakePending := true }

/-- External stimuli that drive the BotSDK state, one per synchronous block in
the source. `submitAction` is the body of sendAction at the point it performs
the isConnected check (registering the PendingAction when connected, otherwise
throwing, which rejects the future the async call returned).
`actionTimeoutFire` is the per-action deadline timer, enabled exactly while
the id is pending. `reconnectTimerFire` is the backoff timer callback, which
re-invokes connect(). -/
inductive SDKEvent
  | connectCall
  | socketOpen
  | handshakeAck
  | socketClose
  | disconnectCall
  | reconnectTimerFire
  | submitAction (id : String)
  | actionTimeoutFire (id : String)
  | message (parsed : Option InboundMessage)
deriving DecidableEq, Repr

/-- One synchronous block of the source, as a function of the stimulus. -/
def stepSDK (cfg : SDKConfig) (st : SDKState) : SDKEvent → SDKState × List Settlement
  | .connectCall => (connectBody st, [])
  | .socketOpen =>
    (if st.ws = some WsState.connecting then { st with ws := some .opened } else st, [])
  | .handshakeAck =>
    (if isConnected st ∧ st.handshakePending then
      { st with
          handshakePending := false
          reconnectAttempt := 0
          connectionState := .connected }
    else st, [])
  | .socketClose =>
    if st.ws ≠ none then onCloseBody cfg st else (st, [])
  | .disconnectCall =>
    let st1 : SDKState := { st with intentionalDisconnect := true, reconnectTimer := none }
    let closed := if st1.ws ≠ none then onCloseBody cfg st1 else (st1, [])
    ({ closed.1 with
        ws := none
        connectPromise := false
        reconnectAttempt := 0
        connectionState := .disconnected }, closed.2)
  | .reconnectTimerFire =>
    (match st.reconnectTimer with
     | some _ => connectBody { st with reconnectTimer := none }
     | none => st, [])
  | .submitAction id =>
    if isConnected st then
      ({ st with pendingActions := insertAction st.pendingActions id }, [])
    else
      (st, [(id, SettleKind.rejectedNotConnected)])
  | .actionTimeoutFire id =>
    if id ∈ st.pendingActions then
      ({ st with pendingActions := deleteAction st.pendingActions id },
        [(id, SettleKind.rejectedActionTimeout)])
    else (st, [])
  | .message parsed => handleMessage st parsed

/-- Fold of `stepSDK` over a list of events, accumulating settlements. -/
def runSDK (cfg : SDKConfig) (st : SDKState) : List SDKEvent → SDKState × List Settlement
  | [] => (st, [])
  | ev :: rest =>
    let out := stepSDK cfg st ev
    let outs := runSDK cfg out.1 rest
    (outs.1, out.2 ++ outs.2)

/-- State after running a trace from the freshly constructed SDK. -/
def runState (cfg : SDKConfig) (tr : List SDKEvent) : SDKState :=
  (runSDK cfg initialState tr).1

/-- Settlements emitted while running a trace from the freshly constructed SDK. -/
def runOutputs (cfg : SDKConfig) (tr : List SDKEvent) : List Settlement :=
  (runSDK cfg initialState tr).2

/-- Number of settlements of a given action id in a settlement list. -/
def settleCount (id : String) (outs : List Settlement) : Nat :=
  (outs.filter (fun s => s.1 = id)).length

/-- Number of sendAction calls for a given id in an event trace. -/
def submitCount (id : String) : List SDKEvent → Nat
  | [] => 0
  | .submitAction j :: rest => (if j = id then 1 else 0) + submitCount id rest
  | _ :: rest => submitCount id rest

/-- Inbound stimuli the spec names as settling an action id: an
acknowledgement carrying the id, an explicit error carrying the id, or the
per-action deadline elapsing. -/
def isSettlingEventFor (id : String) : SDKEvent → Bool
  | .actionTimeoutFire j => j = id
  | .message (some (.sdkActionResult (some j) _)) => j = id
  | .message (some (.sdkError (some j) _)) => j = id
  | _ => false

theorem settleCount_nil (id : String) : settleCount id [] = 0 := rfl

theorem settleCount_append (id : String) (a b : List Settlement) :
    settleCount id (a ++ b) = settleCount id a + settleCount id b := by
  simp [settleCount, List.filter_append]

theorem settleCount_map_const (id : String) (k : SettleKind) (l : List String) :
    settleCount id (l.map (fun j => (j, k))) = l.count id := by
  induction l with
  | nil => rfl
  | cons x xs ih =>
    by_cases hx : x = id <;> simp [settleCount, List.count_cons, hx] at ih ⊢ <;> omega

theorem count_deleteAction_self (l : List String) (id : String) :
    (deleteAction l id).count id = 0 := by
  simp [deleteAction, List.count_eq_zero, List.mem_filter]

theorem count_deleteAction_le (l : List String) (j id : String) :
    (deleteAction l j).count id ≤ l.count id :=
  List.Sublist.count_le (List.filter_sublist l) id

theorem count_insertAction_self (l : List String) (id : String) :
    (insertAction l id).count id ≤ l.count id + 1 := by
  by_cases h : id ∈ l <;> simp [insertAction, h, List.count_append]

theorem count_insertAction_other (l : List String) {j id : String} (hj : j ≠ id) :
    (insertAction l j).count id = l.count id := by
  by_cases h : j ∈ l <;>
    simp [insertAction, h, List.count_append, List.count_singleton', hj]

theorem count_pos_of_mem {l : List String} {id : String} (h : id ∈ l) :
    1 ≤ l.count id := List.count_pos_iff.mpr h

theorem onCloseBody_pending (cfg : SDKConfig) (st : SDKState) :
    (onCloseBody cfg st).1.pendingActions = [] := by
  simp only [onCloseBody, scheduleReconnect]
  split_ifs <;> rfl

theorem onCloseBody_outs (cfg : SDKConfig) (st : SDKState) :
    (onCloseBody cfg st).2
      = st.pendingActions.map (fun id => (id, SettleKind.rejectedConnectionClosed)) := by
  simp only [onCloseBody, scheduleReconnect]
  split_ifs <;> rfl

/-- Each step settles an id at most once more than the pending-map occupancy
it consumes plus the sendAction call it represents. -/
theorem step_settle_bound (cfg : SDKConfig) (st : SDKState) (ev : SDKEvent) (id : String) :
    settleCount id (stepSDK cfg st ev).2 + ((stepSDK cfg st ev).1.pendingActions.count id)
      ≤ st.pendingActions.count id + submitCount id [ev] := by
  cases ev with
  | connectCall =>
    simp only [stepSDK, connectBody]
    split_ifs <;> simp [settleCount, submitCount]
  | socketOpen =>
    simp only [stepSDK]
    split_ifs <;> simp [settleCount, submitCount]
  | handshakeAck =>
    simp only [stepSDK]
    split_ifs <;> simp [settleCount, submitCount]
  | socketClose =>
    simp only [stepSDK]
    split_ifs with hws
    · simp [onCloseBody_pending, onCloseBody_outs, settleCount_map_const, submitCount]
    · simp [settleCount, submitCount]
  | disconnectCall =>
    simp only [stepSDK]
    split_ifs with hws
    · simp [onCloseBody_pending, onCloseBody_outs, settleCount_map_const, submitCount]
    · simp [settleCount, submitCount]
  | reconnectTimerFire =>
    simp only [stepSDK]
    cases h : st.reconnectTimer with
    | none => simp [settleCount, submitCount]
    | some d =>
      simp only [connectBody]
      split_ifs <;> simp [settleCount, submitCount]
  | submitAction j =>
    simp only [stepSDK]
    split_ifs with hc
    · by_cases hj : j = id
      · subst hj
        have h1 := count_insertAction_self st.pendingActions j
        simp [settleCount, submitCount]
        omega
      · have h1 := count_insertAction_other st.pendingActions hj
        simp [settleCount, submitCount, h1, hj]
    · by_cases hj : j = id
      · simp [settleCount, submitCount, hj]
        omega
      · simp [settleCount, submitCount, hj]
  | actionTimeoutFire j =>
    simp only [stepSDK]
    split_ifs with hm
    · by_cases hj : j = id
      · subst hj
        have h1 := count_pos_of_mem hm
        have h2 := count_deleteAction_self st.pendingActions j
        simp [settleCount, submitCount, h2, hm]
      · have h3 := count_deleteAction_le st.pendingActions j id
        simp [settleCount, submitCount, hj]
        omega
    · by_cases hj : j = id <;> simp [settleCount, submitCount, hj]
  | message parsed =>
    simp only [stepSDK]
    match parsed with
    | none => simp [handleMessage, settleCount, submitCount]
    | some (.sdkState s) =>
      cases s <;> simp [handleMessage, settleCount, submitCount]
    | some (.sdkActionResult aid r) =>
      cases aid with
      | none => simp [handleMessage, settleCount, submitCount]
      | some j =>
        simp only [handleMessage]
        split_ifs with hm
        · by_cases hj : j = id
          · subst hj
            have h1 := count_pos_of_mem hm
            have h2 := count_deleteAction_self st.pendingActions j
            cases r <;> simp [settleCount, submitCount, h2, hm]
          · have h3 := count_deleteAction_le st.pendingActions j id
            cases r <;> simp [settleCount, submitCount, hj] <;> omega
        · simp [settleCount, submitCount]
    | some (.sdkError aid e) =>
      cases aid with
      | none => simp [handleMessage, settleCount, submitCount]
      | some j =>
        simp only [handleMessage]
        split_ifs with hm
        · by_cases hj : j = id
          · subst hj
            have h1 := count_pos_of_mem hm
            have h2 := count_deleteAction_self st.pendingActions j
            simp [settleCount, submitCount, h2, hm]
          · have h3 := count_deleteAction_le st.pendingActions j id
            simp [settleCount, submitCount, hj]
            omega
        · simp [settleCount, submitCount]
    | some .otherType => simp [handleMessage, settleCount, submitCount]


theorem runSDK_cons (cfg : SDKConfig) (st : SDKState) (ev : SDKEvent) (rest : List SDKEvent) :
    runSDK cfg st (ev :: rest)
      = ((runSDK cfg (stepSDK cfg st ev).1 rest).1,
         (stepSDK cfg st ev).2 ++ (runSDK cfg (stepSDK cfg st ev).1 rest).2) := rfl

theorem runSDK_append (cfg : SDKConfig) (a b : List SDKEvent) :
    ∀ st : SDKState, runSDK cfg st (a ++ b)
      = ((runSDK cfg (runSDK cfg st a).1 b).1,
         (runSDK cfg st a).2 ++ (runSDK cfg (runSDK cfg st a).1 b).2) := by
  induction a with
  | nil => intro st; simp [runSDK]
  | cons ev rest ih =>
    intro st
    simp [runSDK_cons, List.cons_append, ih, List.append_assoc]

theorem submitCount_cons (id : String) (ev : SDKEvent) (rest : List SDKEvent) :
    submitCount id (ev :: rest) = submitCount id [ev] + submitCount id rest := by
  cases ev <;> simp [submitCount]

/-- Settlements are bounded by initial pending-map occupancy plus the number
of sendAction calls in the trace. -/
theorem run_settle_bound (cfg : SDKConfig) (id : String) :
    ∀ (tr : List SDKEvent) (st : SDKState),
      settleCount id (runSDK cfg st tr).2
        ≤ st.pendingActions.count id + submitCount id tr := by
  intro tr
  induction tr with
  | nil => intro st; simp [runSDK, settleCount, submitCount]
  | cons ev rest ih =>
    intro st
    have h1 := step_settle_bound cfg st ev id
    have h2 := ih (stepSDK cfg st ev).1
    have h3 := submitCount_cons id ev rest
    rw [runSDK_cons]
    simp only [settleCount_append]
    omega

theorem connectBody_pending (st : SDKState) :
    (connectBody st).pendingActions = st.pendingActions := by
  simp only [connectBody]
  split_ifs <;> rfl

theorem mem_insertAction {l : List String} {id : String} (j : String) (h : id ∈ l) :
    id ∈ insertAction l j := by
  by_cases hm : j ∈ l <;> simp [insertAction, hm, h]

theorem mem_deleteAction_of_ne {l : List String} {id j : String} (h : id ∈ l) (hne : id ≠ j) :
    id ∈ deleteAction l j := by
  simp [deleteAction, List.mem_filter, h, hne]

theorem settleCount_single_self (id : String) (k : SettleKind) :
    settleCount id [(id, k)] = 1 := by simp [settleCount]

/-- A pending id survives a step unless that step settles it. -/
theorem step_pending_or_settled (cfg : SDKConfig) (st : SDKState) (ev : SDKEvent)
    {id : String} (h : id ∈ st.pendingActions) :
    id ∈ (stepSDK cfg st ev).1.pendingActions ∨ 1 ≤ settleCount id (stepSDK cfg st ev).2 := by
  cases ev with
  | connectCall => left; simpa [stepSDK, connectBody_pending] using h
  | socketOpen =>
    left
    simp only [stepSDK]
    split_ifs <;> simpa using h
  | handshakeAck =>
    left
    simp only [stepSDK]
    split_ifs <;> simpa using h
  | socketClose =>
    simp only [stepSDK]
    split_ifs with hws
    · right
      rw [onCloseBody_outs, settleCount_map_const]
      exact count_pos_of_mem h
    · left; simpa using h
  | disconnectCall =>
    simp only [stepSDK]
    split_ifs with hws
    · right
      rw [onCloseBody_outs, settleCount_map_const]
      exact count_pos_of_mem h
    · left; simpa using h
  | reconnectTimerFire =>
    left
    cases ht : st.reconnectTimer <;>
      simp [stepSDK, ht, connectBody_pending, h]
  | submitAction j =>
    simp only [stepSDK]
    split_ifs with hc
    · left; simpa using mem_insertAction j h
    · left; simpa using h
  | actionTimeoutFire j =>
    simp only [stepSDK]
    split_ifs with hm
    · by_cases hj : id = j
      · right; subst hj; simp [settleCount_single_self]
      · left; simpa using mem_deleteAction_of_ne h hj
    · left; simpa using h
  | message parsed =>
    simp only [stepSDK]
    match parsed with
    | none => left; simpa [handleMessage] using h
    | some (.sdkState s) => left; cases s <;> simpa [handleMessage] using h
    | some (.sdkActionResult aid r) =>
      cases aid with
      | none => left; simpa [handleMessage] using h
      | some j =>
        simp only [handleMessage]
        split_ifs with hm
        · by_cases hj : id = j
          · right; subst hj; cases r <;> simp [settleCount_single_self]
          · left; simpa using mem_deleteAction_of_ne h hj
        · left; simpa using h
    | some (.sdkError aid e) =>
      cases aid with
      | none => left; simpa [handleMessage] using h
      | some j =>
        simp only [handleMessage]
        split_ifs with hm
        · by_cases hj : id = j
          · right; subst hj; simp [settleCount_single_self]
          · left; simpa using mem_deleteAction_of_ne h hj
        · left; simpa using h
    | some .otherType => left; simpa [handleMessage] using h

/-- A settling stimulus for a pending id settles it in that very step. -/
theorem step_settles (cfg : SDKConfig) (st : SDKState) (ev : SDKEvent) {id : String}
    (h : id ∈ st.pendingActions) (hs : isSettlingEventFor id ev = true) :
    1 ≤ settleCount id (stepSDK cfg st ev).2 := by
  cases ev with
  | actionTimeoutFire j =>
    have hj : j = id := by simpa [isSettlingEventFor] using hs
    subst hj
    simp [stepSDK, h, settleCount_single_self]
  | message parsed =>
    match parsed with
    | none => simp [isSettlingEventFor] at hs
    | some (.sdkState s) => simp [isSettlingEventFor] at hs
    | some .otherType => simp [isSettlingEventFor] at hs
    | some (.sdkActionResult aid r) =>
      cases aid with
      | none => simp [isSettlingEventFor] at hs
      | some j =>
        have hj : j = id := by simpa [isSettlingEventFor] using hs
        subst hj
        cases r <;> simp [stepSDK, handleMessage, h, settleCount_single_self]
    | some (.sdkError aid e) =>
      cases aid with
      | none => simp [isSettlingEventFor] at hs
      | some j =>
        have hj : j = id := by simpa [isSettlingEventFor] using hs
        subst hj
        simp [stepSDK, handleMessage, h, settleCount_single_self]
  | connectCall => simp [isSettlingEventFor] at hs
  | socketOpen => simp [isSettlingEventFor] at hs
  | handshakeAck => simp [isSettlingEventFor] at hs
  | socketClose => simp [isSettlingEventFor] at hs
  | disconnectCall => simp [isSettlingEventFor] at hs
  | reconnectTimerFire => simp [isSettlingEventFor] at hs
  | submitAction j => simp [isSettlingEventFor] at hs

/-- A pending id survives a whole trace unless some step settled it. -/
theorem run_pending_or_settled (cfg : SDKConfig) (id : String) :
    ∀ (tr : List SDKEvent) (st : SDKState), id ∈ st.pendingActions →
      id ∈ (runSDK cfg st tr).1.pendingActions ∨ 1 ≤ settleCount id (runSDK cfg st tr).2 := by
  intro tr
  induction tr with
  | nil => intro st h; left; simpa [runSDK] using h
  | cons ev rest ih =>
    intro st h
    rw [runSDK_cons]
    simp only [settleCount_append]
    rcases step_pending_or_settled cfg st ev h with h1 | h1
    · rcases ih _ h1 with h2 | h2
      · left; exact h2
      · right; omega
    · right; omega

/-- The sendAction registration step either records the id as pending or
rejects the returned future at once with the not-connected error. -/
theorem step_submit_pending_or_settled (cfg : SDKConfig) (st : SDKState) (id : String) :
    id ∈ (stepSDK cfg st (.submitAction id)).1.pendingActions
      ∨ 1 ≤ settleCount id (stepSDK cfg st (.submitAction id)).2 := by
  simp only [stepSDK]
  split_ifs with hc
  · left
    by_cases hm : id ∈ st.pendingActions <;> simp [insertAction, hm]
  · right; simp [settleCount_single_self]

/-- C1: For every interleaving of sendAction calls with distinct action ids
and subsequent inbound events (acknowledgement with the id, explicit error
with the id, or deadline elapse), the future returned by each sendAction call
is settled exactly once: at most one settlement is ever emitted for an id
(so it is never both resolved and rejected, and never settled twice, the
pending entry being removed at the settling step), and exactly one settlement
is emitted when the trace contains the sendAction call followed by a settling
inbound event for that id. -/
theorem sendAction_settles_exactly_once (cfg : SDKConfig) (tr : List SDKEvent) (id : String)
    (hdistinct : submitCount id tr ≤ 1) :
    settleCount id (runOutputs cfg tr) ≤ 1 ∧
    (∀ (a b1 : List SDKEvent) (s : SDKEvent) (b2 : List SDKEvent),
      tr = a ++ SDKEvent.submitAction id :: (b1 ++ s :: b2) →
      isSettlingEventFor id s = true →
      settleCount id (runOutputs cfg tr) = 1) := by
  have hub : settleCount id (runOutputs cfg tr) ≤ 1 := by
    have h := run_settle_bound cfg id tr initialState
    simpa [runOutputs, initialState] using Nat.le_trans h (by simpa [initialState] using hdistinct)
  refine ⟨hub, ?_⟩
  intro a b1 s b2 htr hs
  subst htr
  refine Nat.le_antisymm hub ?_
  have e1 := runSDK_append cfg a (SDKEvent.submitAction id :: (b1 ++ s :: b2)) initialState
  set A := runSDK cfg initialState a with hA
  have e2 := runSDK_cons cfg A.1 (SDKEvent.submitAction id) (b1 ++ s :: b2)
  set SB := stepSDK cfg A.1 (SDKEvent.submitAction id) with hSB
  have e3 := runSDK_append cfg b1 (s :: b2) SB.1
  set B := runSDK cfg SB.1 b1 with hB
  have e4 := runSDK_cons cfg B.1 s b2
  have houts : runOutputs cfg (a ++ SDKEvent.submitAction id :: (b1 ++ s :: b2))
      = A.2 ++ (SB.2 ++ (B.2 ++ ((stepSDK cfg B.1 s).2 ++ (runSDK cfg (stepSDK cfg B.1 s).1 b2).2))) := by
    simp only [runOutputs, e1, e2, e3, e4]
  rw [houts]
  simp only [settleCount_append]
  rcases step_submit_pending_or_settled cfg A.1 id with h1 | h1
  · rw [← hSB] at h1
    rcases run_pending_or_settled cfg id b1 SB.1 h1 with h2 | h2
    · rw [← hB] at h2
      have h3 := step_settles cfg B.1 s h2 hs
      omega
    · rw [← hB] at h2
      omega
  · rw [← hSB] at h1
    omega

/-- Witness for C1: a concrete connected trace with one submit and one
deadline elapse settles the id exactly once. -/
theorem sendAction_settles_exactly_once_witness :
    settleCount "a" (runOutputs defaultConfig
      [SDKEvent.connectCall, SDKEvent.socketOpen, SDKEvent.submitAction "a",
       SDKEvent.actionTimeoutFire "a"]) = 1 :=
  (sendAction_settles_exactly_once defaultConfig
      [SDKEvent.connectCall, SDKEvent.socketOpen, SDKEvent.submitAction "a",
       SDKEvent.actionTimeoutFire "a"] "a" (by decide)).2
    [SDKEvent.connectCall, SDKEvent.socketOpen] [] (SDKEvent.actionTimeoutFire "a") []
    rfl (by decide)

theorem not_mem_deleteAction_self (l : List String) (id : String) :
    id ∉ deleteAction l id := by
  simp [deleteAction, List.mem_filter]

/-- C2: when the per-action deadline elapses with the id still pending, the
future is rejected with the action-timeout error and the entry is removed
from the pending map; an sdk_action_result acknowledgement carrying an id
with no pending entry, in particular one arriving after the timeout already
fired, is a no-op: the state is returned unchanged and no future is
settled. -/
theorem actionTimeout_rejects_and_late_ack_noop (cfg : SDKConfig) (st : SDKState)
    (id : String) (r : Option ActionResult) :
    (id ∈ st.pendingActions →
      stepSDK cfg st (.actionTimeoutFire id)
        = ({ st with pendingActions := deleteAction st.pendingActions id },
           [(id, SettleKind.rejectedActionTimeout)])) ∧
    (id ∉ st.pendingActions →
      stepSDK cfg st (.message (some (.sdkActionResult (some id) r))) = (st, [])) ∧
    (id ∈ st.pendingActions →
      stepSDK cfg (stepSDK cfg st (.actionTimeoutFire id)).1
          (.message (some (.sdkActionResult (some id) r)))
        = ((stepSDK cfg st (.actionTimeoutFire id)).1, [])) := by
  refine ⟨fun hm => ?_, fun hm => ?_, fun hm => ?_⟩
  · simp [stepSDK, hm]
  · simp [stepSDK, handleMessage, hm]
  · simp [stepSDK, handleMessage, hm, not_mem_deleteAction_self]

/-- Witness for C2: with one pending action, the deadline elapse rejects it
with the timeout error and a subsequent acknowledgement for the same id
changes nothing. -/
theorem actionTimeout_rejects_and_late_ack_noop_witness :
    (stepSDK defaultConfig { initialState with pendingActions := ["a"] }
        (.actionTimeoutFire "a")
      = ({ initialState with pendingActions := deleteAction ["a"] "a" },
         [("a", SettleKind.rejectedActionTimeout)])) ∧
    (stepSDK defaultConfig
        (stepSDK defaultConfig { initialState with pendingActions := ["a"] }
          (.actionTimeoutFire "a")).1
        (.message (some (.sdkActionResult (some "a") (some { ok := true }))))
      = ((stepSDK defaultConfig { initialState with pendingActions := ["a"] }
          (.actionTimeoutFire "a")).1, [])) :=
  ⟨(actionTimeout_rejects_and_late_ack_noop defaultConfig
      { initialState with pendingActions := ["a"] } "a" (some { ok := true })).1
      (by decide),
   (actionTimeout_rejects_and_late_ack_noop defaultConfig
      { initialState with pendingActions := ["a"] } "a" (some { ok := true })).2.2
      (by decide)⟩

theorem handleMessage_fields (st : SDKState) (p : Option InboundMessage) :
    (handleMessage st p).1.ws = st.ws ∧
    (handleMessage st p).1.connectionState = st.connectionState ∧
    (handleMessage st p).1.intentionalDisconnect = st.intentionalDisconnect ∧
    (handleMessage st p).1.reconnectAttempt = st.reconnectAttempt ∧
    (handleMessage st p).1.reconnectTimer = st.reconnectTimer ∧
    (handleMessage st p).1.connectPromise = st.connectPromise ∧
    (handleMessage st p).1.handshakePending = st.handshakePending := by
  cases p with
  | none => simp [handleMessage]
  | some msg =>
    cases msg with
    | sdkState s => cases s <;> simp [handleMessage]
    | sdkActionResult aid r =>
      cases aid with
      | none => simp [handleMessage]
      | some j =>
        simp only [handleMessage]
        split_ifs <;> simp
    | sdkError aid e =>
      cases aid with
      | none => simp [handleMessage]
      | some j =>
        simp only [handleMessage]
        split_ifs <;> simp
    | otherType => simp [handleMessage]

theorem handleMessage_pending (st : SDKState) (p : Option InboundMessage) :
    (handleMessage st p).1.pendingActions = st.pendingActions ∨
    ∃ j, (handleMessage st p).1.pendingActions = deleteAction st.pendingActions j := by
  cases p with
  | none => left; simp [handleMessage]
  | some msg =>
    cases msg with
    | sdkState s => cases s <;> simp [handleMessage]
    | sdkActionResult aid r =>
      cases aid with
      | none => left; simp [handleMessage]
      | some j =>
        simp only [handleMessage]
        split_ifs with hm
        · right; exact ⟨j, by simp⟩
        · left; simp
    | sdkError aid e =>
      cases aid with
      | none => left; simp [handleMessage]
      | some j =>
        simp only [handleMessage]
        split_ifs with hm
        · right; exact ⟨j, by simp⟩
        · left; simp
    | otherType => left; simp [handleMessage]

theorem deleteAction_nil (id : String) : deleteAction [] id = [] := rfl

theorem nonempty_of_deleteAction_nonempty {l : List String} {j : String}
    (h : deleteAction l j ≠ []) : l ≠ [] := by
  intro hl
  exact h (by simp [hl, deleteAction_nil])

/-- Structural invariants holding in every reachable SDK state: a
disconnected session holds no socket, a connected session holds an open
socket, an intentional disconnect leaves the session out of reconnecting with
no socket, and pending actions only exist while the socket is open. -/
def SDKInv (st : SDKState) : Prop :=
  (st.connectionState = .disconnected → st.ws = none) ∧
  (st.connectionState = .connected → st.ws = some .opened) ∧
  (st.intentionalDisconnect = true → st.connectionState ≠ .reconnecting ∧ st.ws = none) ∧
  (st.pendingActions ≠ [] → st.ws = some .opened)

theorem sdkInv_initial : SDKInv initialState := by
  simp [SDKInv, initialState]

theorem sdkInv_connectBody (st : SDKState) (h : SDKInv st) : SDKInv (connectBody st) := by
  obtain ⟨h1, h2, h3, h4⟩ := h
  by_cases hc : isConnected st
  · simpa [connectBody, hc] using ⟨h1, h2, h3, h4⟩
  · by_cases hp : st.connectPromise
    · simpa [connectBody, hc, hp] using ⟨h1, h2, h3, h4⟩
    · have hpend : st.pendingActions = [] := by
        by_contra hne
        exact hc (by simp [isConnected, h4 hne])
      by_cases hr : st.connectionState = .reconnecting
      · simp [connectBody, hc, hp, hr, SDKInv, hpend]
      · simp [connectBody, hc, hp, hr, SDKInv, hpend]

theorem onCloseBody_intentional_true (cfg : SDKConfig) (st : SDKState)
    (hi : st.intentionalDisconnect = true) :
    (onCloseBody cfg st).1
      = { st with
            connectPromise := false
            ws := none
            handshakePending := false
            pendingActions := []
            connectionState := .disconnected } := by
  simp [onCloseBody, hi]

theorem sdkInv_onCloseBody (cfg : SDKConfig) (st : SDKState) :
    SDKInv (onCloseBody cfg st).1 := by
  simp only [onCloseBody, scheduleReconnect]
  split_ifs with hb he
  · simp [SDKInv]
  · have hi : st.intentionalDisconnect = false := by
      rcases Bool.and_eq_true_iff.mp hb with ⟨-, hni⟩
      simpa using hni
    simp [SDKInv, hi]
  · simp [SDKInv]

theorem sdkInv_step (cfg : SDKConfig) (st : SDKState) (ev : SDKEvent) (h : SDKInv st) :
    SDKInv (stepSDK cfg st ev).1 := by
  obtain ⟨h1, h2, h3, h4⟩ := h
  cases ev with
  | connectCall => exact sdkInv_connectBody st ⟨h1, h2, h3, h4⟩
  | socketOpen =>
    simp only [stepSDK]
    split_ifs with hws
    · refine ⟨fun hd => ?_, fun _ => rfl, fun hi => ?_, fun _ => rfl⟩
      · rw [h1 hd] at hws; cases hws
      · rw [(h3 hi).2] at hws; cases hws
    · exact ⟨h1, h2, h3, h4⟩
  | handshakeAck =>
    simp only [stepSDK]
    split_ifs with hg
    · refine ⟨by simp, fun _ => ?_, fun hi => ?_, fun _ => ?_⟩
      · simpa [isConnected] using hg.1
      · exact absurd hg.1 (by simp [isConnected, (h3 (by simpa using hi)).2])
      · simpa [isConnected] using hg.1
    · exact ⟨h1, h2, h3, h4⟩
  | socketClose =>
    simp only [stepSDK]
    split_ifs with hws
    · exact sdkInv_onCloseBody cfg st
    · exact ⟨h1, h2, h3, h4⟩
  | disconnectCall =>
    simp only [stepSDK]
    split_ifs with hws
    · refine ⟨fun _ => rfl, by simp, fun _ => ⟨by simp, rfl⟩, fun hne => ?_⟩
      exact absurd (onCloseBody_pending cfg _) hne
    · refine ⟨fun _ => rfl, by simp, fun _ => ⟨by simp, rfl⟩, fun hne => ?_⟩
      simp only [ne_eq, not_not] at hws
      have hwsn : st.ws = none := by simpa using hws
      have hp : st.pendingActions = [] := by
        by_contra hne2
        rw [h4 hne2] at hwsn
        cases hwsn
      exact absurd hp (by simpa using hne)
  | reconnectTimerFire =>
    simp only [stepSDK]
    cases ht : st.reconnectTimer with
    | none => exact ⟨h1, h2, h3, h4⟩
    | some d =>
      exact sdkInv_connectBody _ ⟨h1, h2, h3, h4⟩
  | submitAction id =>
    simp only [stepSDK]
    split_ifs with hc
    · exact ⟨h1, h2, h3, fun _ => by simpa [isConnected] using hc⟩
    · exact ⟨h1, h2, h3, h4⟩
  | actionTimeoutFire id =>
    simp only [stepSDK]
    split_ifs with hm
    · exact ⟨h1, h2, h3, fun hne => h4 (nonempty_of_deleteAction_nonempty hne)⟩
    · exact ⟨h1, h2, h3, h4⟩
  | message p =>
    obtain ⟨hws, hcs, hid, -, -, -, -⟩ := handleMessage_fields st p
    simp only [stepSDK]
    refine ⟨fun hd => ?_, fun hc => ?_, fun hi => ?_, fun hne => ?_⟩
    · rw [hcs] at hd; rw [hws]; exact h1 hd
    · rw [hcs] at hc; rw [hws]; exact h2 hc
    · rw [hid] at hi
      exact ⟨by rw [hcs]; exact (h3 hi).1, by rw [hws]; exact (h3 hi).2⟩
    · rw [hws]
      rcases handleMessage_pending st p with he | ⟨j, he⟩
      · rw [he] at hne; exact h4 hne
      · rw [he] at hne; exact h4 (nonempty_of_deleteAction_nonempty hne)

/-- Every state reachable from the freshly constructed SDK satisfies the
structural invariants. -/
theorem sdkInv_run (cfg : SDKConfig) (tr : List SDKEvent) : SDKInv (runState cfg tr) := by
  suffices h : ∀ (tr : List SDKEvent) (st : SDKState), SDKInv st → SDKInv (runSDK cfg st tr).1 by
    exact h tr initialState sdkInv_initial
  intro tr
  induction tr with
  | nil => intro st h; simpa [runSDK] using h
  | cons ev rest ih =>
    intro st h
    rw [runSDK_cons]
    exact ih _ (sdkInv_step cfg st ev h)

theorem disconnect_step_fields (cfg : SDKConfig) (st : SDKState)
    (h4 : st.pendingActions ≠ [] → st.ws = some WsState.opened) :
    (stepSDK cfg st SDKEvent.disconnectCall).2
      = st.pendingActions.map (fun id => (id, SettleKind.rejectedConnectionClosed)) ∧
    (stepSDK cfg st SDKEvent.disconnectCall).1.pendingActions = [] ∧
    (stepSDK cfg st SDKEvent.disconnectCall).1.intentionalDisconnect = true ∧
    (stepSDK cfg st SDKEvent.disconnectCall).1.reconnectTimer = none ∧
    (stepSDK cfg st SDKEvent.disconnectCall).1.connectionState = ConnectionState.disconnected ∧
    (stepSDK cfg st SDKEvent.disconnectCall).1.ws = none := by
  simp only [stepSDK]
  split_ifs with hws
  · rw [onCloseBody_intentional_true cfg _ rfl, onCloseBody_outs]
    simp
  · simp only [ne_eq, not_not] at hws
    have hwsn : st.ws = none := by simpa using hws
    have hp : st.pendingActions = [] := by
      by_contra hne
      rw [h4 hne] at hwsn
      cases hwsn
    simp [hp]

/-- C3: calling disconnect() in any reachable state rejects every outstanding
PendingAction with the connection-closed error (one settlement per pending
id, in map order), leaves the pending map empty, marks the close intentional
(suppressing auto-reconnect), cancels the reconnect timer, drops the socket,
and transitions the connection state to disconnected. -/
theorem disconnect_rejects_all_pending (cfg : SDKConfig) (tr : List SDKEvent) :
    (stepSDK cfg (runState cfg tr) SDKEvent.disconnectCall).2
      = (runState cfg tr).pendingActions.map
          (fun id => (id, SettleKind.rejectedConnectionClosed)) ∧
    (stepSDK cfg (runState cfg tr) SDKEvent.disconnectCall).1.pendingActions = [] ∧
    (stepSDK cfg (runState cfg tr) SDKEvent.disconnectCall).1.intentionalDisconnect = true ∧
    (stepSDK cfg (runState cfg tr) SDKEvent.disconnectCall).1.reconnectTimer = none ∧
    (stepSDK cfg (runState cfg tr) SDKEvent.disconnectCall).1.connectionState
      = ConnectionState.disconnected ∧
    (stepSDK cfg (runState cfg tr) SDKEvent.disconnectCall).1.ws = none :=
  disconnect_step_fields cfg (runState cfg tr) (sdkInv_run cfg tr).2.2.2

/-- Modelled from the spec: the §4.4 connection-state transition table, read
as the set of ordered (source, target) pairs its arrows allow. -/
def specTransitionTable : List (ConnectionState × ConnectionState) :=
  [(.disconnected, .connecting),
   (.connecting, .connected),
   (.connecting, .disconnected),
   (.connected, .reconnecting),
   (.connected, .disconnected),
   (.reconnecting, .connected),
   (.reconnecting, .reconnecting),
   (.reconnecting, .disconnected)]

theorem connectBody_transition (st : SDKState) (h : SDKInv st)
    (hch : (connectBody st).connectionState ≠ st.connectionState) :
    st.connectionState = ConnectionState.disconnected ∧
    (connectBody st).connectionState = ConnectionState.connecting := by
  obtain ⟨h1, h2, h3, h4⟩ := h
  by_cases hc : isConnected st
  · exact absurd (by simp [connectBody, hc]) hch
  · by_cases hp : st.connectPromise
    · exact absurd (by simp [connectBody, hc, hp]) hch
    · by_cases hr : st.connectionState = ConnectionState.reconnecting
      · exact absurd (by simp [connectBody, hc, hp, hr]) hch
      · cases hcs : st.connectionState with
        | disconnected => exact ⟨rfl, by simp [connectBody, hc, hp, hr]⟩
        | connecting => exact absurd (by simp [connectBody, hc, hp, hr, hcs]) hch
        | connected => exact absurd hc (by simp [isConnected, h2 hcs])
        | reconnecting => exact absurd hcs hr

/-- Every state-changing connection transition of the implementation is
either an edge of the §4.4 table or the extra edge connecting to
reconnecting (handshake failure with auto-reconnect pending). -/
theorem step_transition_table (cfg : SDKConfig) (st : SDKState) (ev : SDKEvent)
    (h : SDKInv st)
    (hch : (stepSDK cfg st ev).1.connectionState ≠ st.connectionState) :
    (st.connectionState, (stepSDK cfg st ev).1.connectionState) ∈ specTransitionTable ∨
    (st.connectionState = ConnectionState.connecting ∧
      (stepSDK cfg st ev).1.connectionState = ConnectionState.reconnecting) := by
  obtain ⟨h1, h2, h3, h4⟩ := h
  cases ev with
  | connectCall =>
    obtain ⟨ha, hb⟩ := connectBody_transition st ⟨h1, h2, h3, h4⟩ hch
    left
    simp only [stepSDK]
    simp [ha, hb, specTransitionTable]
  | socketOpen =>
    exact absurd (by simp only [stepSDK]; split_ifs <;> rfl) hch
  | handshakeAck =>
    simp only [stepSDK] at hch ⊢
    split_ifs at hch ⊢ with hg
    · cases hcs : st.connectionState with
      | disconnected => exact absurd hg.1 (by simp [isConnected, h1 hcs])
      | connecting => left; simp [specTransitionTable]
      | connected => rw [hcs] at hch; exact absurd rfl hch
      | reconnecting => left; simp [specTransitionTable]
    · exact absurd rfl hch
  | socketClose =>
    simp only [stepSDK] at hch ⊢
    by_cases hws : st.ws ≠ none
    · rw [if_pos hws] at hch ⊢
      simp only [onCloseBody, scheduleReconnect] at hch ⊢
      split_ifs at hch ⊢ with hb he
      · cases hcs : st.connectionState with
        | disconnected => exact absurd (h1 hcs) hws
        | connecting => left; simp [specTransitionTable]
        | connected => left; simp [specTransitionTable]
        | reconnecting => left; simp [specTransitionTable]
      · cases hcs : st.connectionState with
        | disconnected => exact absurd (h1 hcs) hws
        | connecting => right; exact ⟨rfl, rfl⟩
        | connected => left; simp [specTransitionTable]
        | reconnecting => left; simp [specTransitionTable]
      · cases hcs : st.connectionState with
        | disconnected => exact absurd (h1 hcs) hws
        | connecting => left; simp [specTransitionTable]
        | connected => left; simp [specTransitionTable]
        | reconnecting => left; simp [specTransitionTable]
    · rw [if_neg hws] at hch
      exact absurd rfl hch
  | disconnectCall =>
    cases hcs : st.connectionState with
    | disconnected => rw [hcs] at hch; exact absurd rfl hch
    | connecting => left; simp [stepSDK, specTransitionTable]
    | connected => left; simp [stepSDK, specTransitionTable]
    | reconnecting => left; simp [stepSDK, specTransitionTable]
  | reconnectTimerFire =>
    cases ht : st.reconnectTimer with
    | none => exact absurd (by simp [stepSDK, ht]) hch
    | some d =>
      have hch2 : (connectBody { st with reconnectTimer := none }).connectionState
          ≠ ({ st with reconnectTimer := none } : SDKState).connectionState := by
        simpa [stepSDK, ht] using hch
      obtain ⟨ha, hb⟩ := connectBody_transition { st with reconnectTimer := none }
        ⟨h1, h2, h3, h4⟩ hch2
      have ha2 : st.connectionState = ConnectionState.disconnected := ha
      left
      simp only [stepSDK, ht]
      rw [hb, ha2]
      decide
  | submitAction id =>
    exact absurd (by simp only [stepSDK]; split_ifs <;> rfl) hch
  | actionTimeoutFire id =>
    exact absurd (by simp only [stepSDK]; split_ifs <;> rfl) hch
  | message p =>
    exact absurd ((handleMessage_fields st p).2.1) hch

/-- Counterexample to C4 as stated: from the reachable state connecting
(reached by calling connect() under the default configuration), a socket
close — which is what a handshake failure or timeout produces — transitions
to reconnecting, not to disconnected, and the edge connecting to
reconnecting is absent from the §4.4 table. -/
theorem connecting_close_counterexample :
    (runState defaultConfig [SDKEvent.connectCall]).connectionState
      = ConnectionState.connecting ∧
    (stepSDK defaultConfig (runState defaultConfig [SDKEvent.connectCall])
        SDKEvent.socketClose).1.connectionState = ConnectionState.reconnecting ∧
    (ConnectionState.connecting, ConnectionState.reconnecting) ∉ specTransitionTable := by
  decide

/-- C4 (amended): every state-changing connection transition from a
reachable state is an edge of the §4.4 table extended with the edge
connecting to reconnecting, which the implementation takes on handshake
failure while auto-reconnect is pending; a retry success (handshake ack
while reconnecting) leads to connected with the attempt counter reset to
zero; a retry failure (socket close while reconnecting, auto-reconnect on)
increments the attempt counter and stays in reconnecting, or leads to
disconnected once the attempt count has reached the configured maximum. -/
theorem connectionState_transitions (cfg : SDKConfig) (tr : List SDKEvent) (ev : SDKEvent) :
    ((stepSDK cfg (runState cfg tr) ev).1.connectionState
        ≠ (runState cfg tr).connectionState →
      ((runState cfg tr).connectionState,
        (stepSDK cfg (runState cfg tr) ev).1.connectionState) ∈ specTransitionTable ∨
      ((runState cfg tr).connectionState = ConnectionState.connecting ∧
        (stepSDK cfg (runState cfg tr) ev).1.connectionState
          = ConnectionState.reconnecting)) ∧
    ((runState cfg tr).connectionState = ConnectionState.reconnecting →
      isConnected (runState cfg tr) = true →
      (runState cfg tr).handshakePending = true →
      (stepSDK cfg (runState cfg tr) SDKEvent.handshakeAck).1.connectionState
          = ConnectionState.connected ∧
      (stepSDK cfg (runState cfg tr) SDKEvent.handshakeAck).1.reconnectAttempt = 0) ∧
    ((runState cfg tr).connectionState = ConnectionState.reconnecting →
      (runState cfg tr).ws ≠ none → cfg.autoReconnect = true →
      (if exceededMaxRetries cfg (runState cfg tr).reconnectAttempt = true then
        (stepSDK cfg (runState cfg tr) SDKEvent.socketClose).1.connectionState
          = ConnectionState.disconnected
      else
        (stepSDK cfg (runState cfg tr) SDKEvent.socketClose).1.connectionState
            = ConnectionState.reconnecting ∧
        (stepSDK cfg (runState cfg tr) SDKEvent.socketClose).1.reconnectAttempt
          = (runState cfg tr).reconnectAttempt + 1)) := by
  have hinv := sdkInv_run cfg tr
  refine ⟨fun hch => step_transition_table cfg _ ev hinv hch, fun hr hc hhp => ?_, fun hr hws hauto => ?_⟩
  · simp [stepSDK, hc, hhp]
  · have hint : (runState cfg tr).intentionalDisconnect = false := by
      cases hb : (runState cfg tr).intentionalDisconnect
      · rfl
      · exact absurd hr (hinv.2.2.1 hb).1
    simp only [stepSDK]
    rw [if_pos hws]
    simp only [onCloseBody, scheduleReconnect]
    simp [hauto, hint]
    split_ifs with he <;> simp [he]

/-- Witness for C4 (amended): the handshake-failure close from connecting
lands on the extra edge of the extended table. -/
theorem connectionState_transitions_witness :
    ((runState defaultConfig [SDKEvent.connectCall]).connectionState,
      (stepSDK defaultConfig (runState defaultConfig [SDKEvent.connectCall])
        SDKEvent.socketClose).1.connectionState) ∈ specTransitionTable ∨
    ((runState defaultConfig [SDKEvent.connectCall]).connectionState
        = ConnectionState.connecting ∧
      (stepSDK defaultConfig (runState defaultConfig [SDKEvent.connectCall])
        SDKEvent.socketClose).1.connectionState = ConnectionState.reconnecting) :=
  (connectionState_transitions defaultConfig [SDKEvent.connectCall] SDKEvent.socketClose).1
    (by decide)

/-- C5: on the nth reconnection attempt (n at least 1), the socket close that
triggers scheduling sets the retry timer to min(base * 2^(n-1), cap) and the
attempt counter to n; with base 1000ms and cap 30000ms the delays for
attempts 1..7 are 1000, 2000, 4000, 8000, 16000, 30000, 30000. -/
theorem reconnect_backoff_delay (cfg : SDKConfig) (st : SDKState) (n : Nat)
    (hn : 1 ≤ n) (hatt : st.reconnectAttempt = n - 1)
    (hauto : cfg.autoReconnect = true) (hint : st.intentionalDisconnect = false)
    (hws : st.ws ≠ none)
    (hmax : exceededMaxRetries cfg (n - 1) = false) :
    (stepSDK cfg st SDKEvent.socketClose).1.reconnectTimer
        = some (min (cfg.reconnectBaseDelay * 2 ^ (n - 1)) cfg.reconnectMaxDelay) ∧
    (stepSDK cfg st SDKEvent.socketClose).1.reconnectAttempt = n ∧
    (List.range 7).map (fun i => backoffDelay defaultConfig (i + 1))
        = [1000, 2000, 4000, 8000, 16000, 30000, 30000] := by
  have hn1 : st.reconnectAttempt + 1 = n := by omega
  have hn2 : st.reconnectAttempt = n - 1 := hatt
  simp only [stepSDK]
  rw [if_pos hws]
  simp only [onCloseBody, scheduleReconnect]
  simp [hauto, hint]
  rw [if_neg (by simp [hn2, hmax])]
  refine ⟨?_, ?_, ?_⟩
  · simp [backoffDelay, hn1, hn2]
  · simp [hn1]
  · decide

/-- Witness for C5: the first retry after a handshake failure under the
default configuration is scheduled 1000ms out with the attempt counter at
one. -/
theorem reconnect_backoff_delay_witness :
    (stepSDK defaultConfig (runState defaultConfig [SDKEvent.connectCall])
        SDKEvent.socketClose).1.reconnectTimer
      = some (min (defaultConfig.reconnectBaseDelay * 2 ^ (1 - 1))
          defaultConfig.reconnectMaxDelay) ∧
    (stepSDK defaultConfig (runState defaultConfig [SDKEvent.connectCall])
        SDKEvent.socketClose).1.reconnectAttempt = 1 ∧
    (List.range 7).map (fun i => backoffDelay defaultConfig (i + 1))
        = [1000, 2000, 4000, 8000, 16000, 30000, 30000] :=
  reconnect_backoff_delay defaultConfig (runState defaultConfig [SDKEvent.connectCall]) 1
    (by decide) (by decide) (by decide) (by decide) (by decide) (by decide)

/-- Outcome of the promise returned by waitForConnection. -/
inductive WaitResult
  | resolved
  | failedDisconnected
  | timedOut
deriving DecidableEq, Repr

/-- Listener loop of waitForConnection: the first connected broadcast
resolves, the first disconnected broadcast rejects (reconnection gave up),
anything else keeps waiting; if no decisive broadcast arrives before the
timeout, the call rejects with the wait-timeout error.  The argument list
holds the connection-state broadcasts delivered before the timeout
elapses. -/
def scanConnNotifs : List ConnectionState → WaitResult
  | [] => WaitResult.timedOut
  | ConnectionState.connected :: _ => WaitResult.resolved
  | ConnectionState.disconnected :: _ => WaitResult.failedDisconnected
  | ConnectionState.connecting :: rest => scanConnNotifs rest
  | ConnectionState.reconnecting :: rest => scanConnNotifs rest

/-- waitForConnection from sdk.ts: resolve immediately when already
connected, otherwise subscribe and scan the broadcasts. -/
def waitForConnection (isConn : Bool) (notifs : List ConnectionState) : WaitResult :=
  if isConn then WaitResult.resolved else scanConnNotifs notifs

/-- How the entry portion of sendAction ends: registering the PendingAction,
or throwing before any registration (the not-connected error from its own
isConnected check, or the error propagated out of the awaited
waitForConnection). -/
inductive SendAttempt
  | registered
  | thrownNotConnected
  | thrownConnectionFailed
  | thrownWaitTimeout
deriving DecidableEq, Repr

/-- Control flow of sendAction before the PendingAction registration: when
the connection state is reconnecting it first awaits waitForConnection
(whose rejection propagates), then checks isConnected and only registers
when that check passes.  `isConnBefore` is isConnected() at the call,
`isConnAfterWait` is isConnected() when the await resumes. -/
def sendActionEntry (connState : ConnectionState) (isConnBefore : Bool)
    (notifs : List ConnectionState) (isConnAfterWait : Bool) : SendAttempt :=
  if connState = ConnectionState.reconnecting then
    match waitForConnection isConnBefore notifs with
    | WaitResult.resolved =>
      if isConnAfterWait then SendAttempt.registered else SendAttempt.thrownNotConnected
    | WaitResult.failedDisconnected => SendAttempt.thrownConnectionFailed
    | WaitResult.timedOut => SendAttempt.thrownWaitTimeout
  else
    if isConnBefore then SendAttempt.registered else SendAttempt.thrownNotConnected

/-- C6: a sendAction call issued while reconnecting does not fail
immediately — it registers exactly when the awaited reconnection resolves
within the wait timeout and the connection is up at resumption; when the
connection is not restored it throws one of the connection-failure errors
without registering; and after an intentional disconnect the reachable state
is never reconnecting, so the call skips the wait and fails immediately with
the not-connected error. -/
theorem sendAction_awaits_reconnection (b a : Bool) (notifs : List ConnectionState)
    (cfg : SDKConfig) (tr : List SDKEvent) :
    (sendActionEntry ConnectionState.reconnecting b notifs a = SendAttempt.registered ↔
      waitForConnection b notifs = WaitResult.resolved ∧ a = true) ∧
    (waitForConnection b notifs ≠ WaitResult.resolved ∨ a = false →
      sendActionEntry ConnectionState.reconnecting b notifs a ≠ SendAttempt.registered ∧
      (sendActionEntry ConnectionState.reconnecting b notifs a = SendAttempt.thrownNotConnected ∨
       sendActionEntry ConnectionState.reconnecting b notifs a = SendAttempt.thrownConnectionFailed ∨
       sendActionEntry ConnectionState.reconnecting b notifs a = SendAttempt.thrownWaitTimeout)) ∧
    ((runState cfg tr).intentionalDisconnect = true →
      (runState cfg tr).connectionState ≠ ConnectionState.reconnecting ∧
      sendActionEntry (runState cfg tr).connectionState (isConnected (runState cfg tr))
          notifs a = SendAttempt.thrownNotConnected) := by
  have hiff : sendActionEntry ConnectionState.reconnecting b notifs a = SendAttempt.registered ↔
      waitForConnection b notifs = WaitResult.resolved ∧ a = true := by
    cases hw : waitForConnection b notifs <;> cases a <;>
      simp [sendActionEntry, hw]
  refine ⟨hiff, fun hfail => ?_, fun hint => ?_⟩
  · constructor
    · intro hreg
      rcases hiff.mp hreg with ⟨hw, ha⟩
      rcases hfail with hfail | hfail
      · exact hfail hw
      · rw [ha] at hfail; cases hfail
    · cases hw : waitForConnection b notifs <;> cases a <;>
        first
        | (simp [sendActionEntry, hw]; simp [hw] at hfail)
        | simp [sendActionEntry, hw]
  · have hinv := sdkInv_run cfg tr
    have hne := (hinv.2.2.1 hint).1
    have hwsn := (hinv.2.2.1 hint).2
    refine ⟨hne, ?_⟩
    have hcn : isConnected (runState cfg tr) = false := by
      simp [isConnected, hwsn]
    simp [sendActionEntry, hne, hcn]

/-- Witness for C6: with a connected broadcast arriving during the wait the
call registers, and after a plain disconnect() the call fails immediately
with the not-connected error. -/
theorem sendAction_awaits_reconnection_witness :
    sendActionEntry ConnectionState.reconnecting false
        [ConnectionState.reconnecting, ConnectionState.connected] true
      = SendAttempt.registered ∧
    ((runState defaultConfig [SDKEvent.disconnectCall]).connectionState
        ≠ ConnectionState.reconnecting ∧
      sendActionEntry (runState defaultConfig [SDKEvent.disconnectCall]).connectionState
          (isConnected (runState defaultConfig [SDKEvent.disconnectCall]))
          [ConnectionState.reconnecting, ConnectionState.connected] true
        = SendAttempt.thrownNotConnected) :=
  ⟨(sendAction_awaits_reconnection false true
      [ConnectionState.reconnecting, ConnectionState.connected]
      defaultConfig [SDKEvent.disconnectCall]).1.mpr ⟨by decide, rfl⟩,
   (sendAction_awaits_reconnection false true
      [ConnectionState.reconnecting, ConnectionState.connected]
      defaultConfig [SDKEvent.disconnectCall]).2.2 (by decide)⟩

/-- How a waitForCondition call settles. -/
inductive WaitCondOutcome
  | immediate (s : BotWorldState)
  | resolvedOnPush (s : BotWorldState)
  | timedOutRejected
deriving DecidableEq, Repr

/-- Run record of one waitForCondition call: its outcome, whether a state
listener was ever registered, and whether that listener is still registered
once the call has settled. -/
structure WaitCondRun where
  outcome : WaitCondOutcome
  everSubscribed : Bool
  subscribedAtEnd : Bool
deriving DecidableEq, Repr

/-- First pushed snapshot satisfying the predicate, in delivery order. -/
def firstMatchingPush (pred : BotWorldState → Bool) :
    List BotWorldState → Option BotWorldState
  | [] => none
  | s :: rest => if pred s then some s else firstMatchingPush pred rest

/-- Subscribe path of waitForCondition: the registered listener resolves
with the first matching push, calling unsubscribe; if no push matches before
the timeout, the timeout handler calls unsubscribe and rejects.  The list
holds the snapshots pushed before the timeout elapses. -/
def waitCondSubscribe (pred : BotWorldState → Bool) (pushes : List BotWorldState) :
    WaitCondRun :=
  match firstMatchingPush pred pushes with
  | some s => ⟨WaitCondOutcome.resolvedOnPush s, true, false⟩
  | none => ⟨WaitCondOutcome.timedOutRejected, true, false⟩

/-- waitForCondition from sdk.ts: evaluate the predicate on the current
snapshot synchronously first and return it without subscribing when it
already holds, otherwise subscribe and wait. -/
def waitForCondition (current : Option BotWorldState) (pred : BotWorldState → Bool)
    (pushes : List BotWorldState) : WaitCondRun :=
  match current with
  | some s =>
    if pred s then ⟨WaitCondOutcome.immediate s, false, false⟩
    else waitCondSubscribe pred pushes
  | none => waitCondSubscribe pred pushes

/-- C7: waitForCondition checks the current snapshot synchronously before
subscribing — when a snapshot exists and the predicate already holds on it,
the call resolves with that snapshot, never registering a listener and
awaiting no push — and on every path (immediate, resolved on a push, or
timed out) no listener remains registered when the call settles. -/
theorem waitForCondition_immediate_and_unsubscribes
    (current : Option BotWorldState) (pred : BotWorldState → Bool)
    (pushes : List BotWorldState) :
    (∀ s, current = some s → pred s = true →
      waitForCondition current pred pushes
        = ⟨WaitCondOutcome.immediate s, false, false⟩) ∧
    (waitForCondition current pred pushes).subscribedAtEnd = false := by
  constructor
  · intro s hc hp
    subst hc
    simp [waitForCondition, hp]
  · cases current with
    | none =>
      simp only [waitForCondition, waitCondSubscribe]
      cases firstMatchingPush pred pushes <;> rfl
    | some s =>
      by_cases hp : pred s
      · simp [waitForCondition, hp]
      · simp only [waitForCondition, hp, Bool.false_eq_true, if_false, waitCondSubscribe]
        cases firstMatchingPush pred pushes <;> rfl

/-- Witness for C7: a predicate already true on the stored snapshot resolves
immediately without any subscription, for any pending pushes. -/
theorem waitForCondition_immediate_and_unsubscribes_witness :
    waitForCondition (some { tick := 5 }) (fun s => 3 ≤ s.tick) [{ tick := 9 }]
      = { outcome := WaitCondOutcome.immediate { tick := 5 }
          everSubscribed := false
          subscribedAtEnd := false } :=
  (waitForCondition_immediate_and_unsubscribes (some { tick := 5 })
      (fun s => 3 ≤ s.tick) [{ tick := 9 }]).1 { tick := 5 } rfl (by decide)

/-- How the promise returned by connect() settles. -/
inductive ConnectSettle
  | resolvedConnected
  | rejectedConnectionTimeout
  | rejectedWsError
deriving DecidableEq, Repr

/-- State of one connect() attempt: whether the 10s handshake timer is still
scheduled, whether onopen has fired (and with it the identify message was
sent), and how the promise has settled, if at all. -/
structure ConnectAttemptState where
  handshakeTimerActive : Bool
  identifySent : Bool
  settled : Option ConnectSettle
deriving DecidableEq, Repr

/-- connect() starts with the handshake timer scheduled, the identify unsent
and the promise pending. -/
def connectInit : ConnectAttemptState :=
  { handshakeTimerActive := true, identifySent := false, settled := none }

/-- A promise settles only once: the first settlement wins. -/
def settleOnce (cur : Option ConnectSettle) (next : ConnectSettle) : Option ConnectSettle :=
  match cur with
  | some s => some s
  | none => some next

/-- Events observable by one connect() attempt. -/
inductive ConnectEvent
  | socketOpened
  | identifyAck
  | socketErrored
  | handshakeTimerElapsed
deriving DecidableEq, Repr

/-- One event of the connect() attempt, translated from the connect() body
in sdk.ts: onopen clears the handshake timer and sends the identify; the
checkConnected listener resolves the promise on the sdk_connected ack;
onerror clears the timer and rejects; and when the 10-second mark passes the
timer callback rejects with the connection-timeout error only if the timer
is still scheduled. -/
def connectStep (st : ConnectAttemptState) : ConnectEvent → ConnectAttemptState
  | ConnectEvent.socketOpened =>
    { st with handshakeTimerActive := false, identifySent := true }
  | ConnectEvent.identifyAck =>
    { st with settled := settleOnce st.settled ConnectSettle.resolvedConnected }
  | ConnectEvent.socketErrored =>
    { st with
        handshakeTimerActive := false
        settled := settleOnce st.settled ConnectSettle.rejectedWsError }
  | ConnectEvent.handshakeTimerElapsed =>
    if st.handshakeTimerActive then
      { st with
          handshakeTimerActive := false
          settled := settleOnce st.settled ConnectSettle.rejectedConnectionTimeout }
    else st

/-- Fold of connectStep over the events of one attempt. -/
def connectRun : ConnectAttemptState → List ConnectEvent → ConnectAttemptState
  | st, [] => st
  | st, ev :: rest => connectRun (connectStep st ev) rest

/-- Attempt state after running the events from a fresh connect() call. -/
def connectAttempt (evs : List ConnectEvent) : ConnectAttemptState :=
  connectRun connectInit evs

theorem connectRun_settled_persists :
    ∀ (evs : List ConnectEvent) (st : ConnectAttemptState) (x : ConnectSettle),
      st.settled = some x → (connectRun st evs).settled = some x := by
  intro evs
  induction evs with
  | nil => intro st x h; simpa [connectRun] using h
  | cons ev rest ih =>
    intro st x h
    refine ih _ x ?_
    cases ev with
    | socketOpened => simp [connectStep, h]
    | identifyAck => simp [connectStep, settleOnce, h]
    | socketErrored => simp [connectStep, settleOnce, h]
    | handshakeTimerElapsed =>
      simp only [connectStep, settleOnce, h]
      split_ifs <;> simp [h]

theorem connectRun_stays_pending :
    ∀ (evs : List ConnectEvent) (st : ConnectAttemptState),
      ConnectEvent.identifyAck ∉ evs → ConnectEvent.socketErrored ∉ evs →
      st.handshakeTimerActive = false → st.settled = none →
      (connectRun st evs).settled = none := by
  intro evs
  induction evs with
  | nil => intro st _ _ _ h; simpa [connectRun] using h
  | cons ev rest ih =>
    intro st hack herr ht hs
    cases ev with
    | socketOpened =>
      exact ih _ (by simp_all) (by simp_all) (by simp [connectStep]) (by simp [connectStep, hs])
    | identifyAck => exact absurd (List.mem_cons_self _ _) hack
    | socketErrored => exact absurd (List.mem_cons_self _ _) herr
    | handshakeTimerElapsed =>
      exact ih _ (by simp_all) (by simp_all) (by simp [connectStep, ht])
        (by simp [connectStep, ht, hs])

theorem connectRun_never_resolves :
    ∀ (evs : List ConnectEvent) (st : ConnectAttemptState),
      ConnectEvent.identifyAck ∉ evs →
      st.settled ≠ some ConnectSettle.resolvedConnected →
      (connectRun st evs).settled ≠ some ConnectSettle.resolvedConnected := by
  intro evs
  induction evs with
  | nil => intro st _ h; simpa [connectRun] using h
  | cons ev rest ih =>
    intro st hack h
    refine ih _ (by simp_all) ?_
    cases ev with
    | socketOpened => simpa [connectStep] using h
    | identifyAck => exact absurd (List.mem_cons_self _ _) hack
    | socketErrored =>
      cases hs : st.settled with
      | none => simp [connectStep, settleOnce, hs]
      | some v =>
        simp only [connectStep, settleOnce, hs]
        simpa [hs] using h
    | handshakeTimerElapsed =>
      cases ht : st.handshakeTimerActive <;>
        cases hs : st.settled <;>
          first
          | (simp [connectStep, settleOnce, hs, ht]; simp [hs] at h; try exact h)
          | simp [connectStep, settleOnce, hs, ht]

/-- Counterexample to C8 as stated: the socket opens — so the identify was
sent and the handshake timer cleared — no ack ever arrives, and the
handshake-timeout moment passes, yet the connect() promise is still
unsettled: it has not resolved, but it also has not failed. -/
theorem connect_never_acked_counterexample :
    (connectAttempt [ConnectEvent.socketOpened,
        ConnectEvent.handshakeTimerElapsed]).identifySent = true ∧
    (connectAttempt [ConnectEvent.socketOpened,
        ConnectEvent.handshakeTimerElapsed]).settled = none := by
  decide

/-- C8 (amended): without an identify-ack connect() never resolves; when the
socket never opens (and no socket error fires first) it rejects with the
connection-timeout error once the handshake timer elapses; but once the
socket has opened, the handshake timer has been cleared in onopen, so if the
identify message is sent and never acknowledged (and no error fires) the
promise stays unsettled forever instead of failing. -/
theorem connect_requires_ack (evs : List ConnectEvent) :
    (ConnectEvent.identifyAck ∉ evs →
      (connectAttempt evs).settled ≠ some ConnectSettle.resolvedConnected) ∧
    (ConnectEvent.identifyAck ∉ evs → ConnectEvent.socketOpened ∉ evs →
      ConnectEvent.socketErrored ∉ evs → ConnectEvent.handshakeTimerElapsed ∈ evs →
      (connectAttempt evs).settled = some ConnectSettle.rejectedConnectionTimeout) ∧
    (∀ rest, evs = ConnectEvent.socketOpened :: rest →
      ConnectEvent.identifyAck ∉ rest → ConnectEvent.socketErrored ∉ rest →
      (connectAttempt evs).settled = none) := by
  refine ⟨fun hack => ?_, fun hack hopen herr helapsed => ?_, fun rest hevs hack herr => ?_⟩
  · exact connectRun_never_resolves evs connectInit hack (by simp [connectInit])
  · cases evs with
    | nil => cases helapsed
    | cons ev rest =>
      cases ev with
      | socketOpened => exact absurd (List.mem_cons_self _ _) hopen
      | identifyAck => exact absurd (List.mem_cons_self _ _) hack
      | socketErrored => exact absurd (List.mem_cons_self _ _) herr
      | handshakeTimerElapsed =>
        exact connectRun_settled_persists rest _ _ (by simp [connectStep, connectInit, settleOnce])
  · subst hevs
    exact connectRun_stays_pending rest _ hack herr
      (by simp [connectStep, connectInit]) (by simp [connectStep, connectInit])

/-- Witness for C8 (amended): with the socket never opening and no ack, the
attempt rejects with the connection-timeout error at the timer elapse. -/
theorem connect_requires_ack_witness :
    (connectAttempt [ConnectEvent.handshakeTimerElapsed]).settled
      = some ConnectSettle.rejectedConnectionTimeout :=
  (connect_requires_ack [ConnectEvent.handshakeTimerElapsed]).2.1
    (by decide) (by decide) (by decide) (by decide)

/-- A state listener as the fan-out loop sees it: invoked with the pushed
snapshot, it either returns or throws (an Except error models the thrown
exception, which the loop's try/catch swallows). -/
abbrev StateListener := BotWorldState → Except String Unit

/-- Listener loop of the sdk_state branch of handleMessage: each listener is
invoked inside try/catch, so a throwing listener is recorded and the loop
continues with every remaining listener rather than aborting. -/
def notifyStateListeners : List StateListener → BotWorldState → List (Except String Unit)
  | [], _ => []
  | l :: rest, s => l s :: notifyStateListeners rest s

/-- The sdk_state branch of handleMessage with the listener set explicit:
the pushed snapshot replaces the stored one and the listener loop runs. -/
def handleStatePush (latest : Option BotWorldState) (listeners : List StateListener)
    (s : BotWorldState) : Option BotWorldState × List (Except String Unit) :=
  (some s, notifyStateListeners listeners s)

theorem notifyStateListeners_eq_map (ls : List StateListener) (s : BotWorldState) :
    notifyStateListeners ls s = ls.map (fun l => l s) := by
  induction ls with
  | nil => rfl
  | cons l rest ih => simp [notifyStateListeners, ih]

/-- C9: when a state push reaches the listeners and one of them throws, the
exception is caught and isolated — every listener, including those after the
throwing one, is still invoked with the pushed snapshot (the results are
exactly the listeners applied in order) — and the push still replaces the
stored latest snapshot; on the machine side the sdk_state branch stores the
snapshot unconditionally. -/
theorem statePush_isolates_listener_exceptions (latest : Option BotWorldState)
    (listeners : List StateListener) (s : BotWorldState) (mst : SDKState)
    (j : Fin listeners.length) (e : String)
    (hthrow : listeners.get j s = Except.error e) :
    (handleStatePush latest listeners s).1 = some s ∧
    (handleStatePush latest listeners s).2 = listeners.map (fun l => l s) ∧
    handleMessage mst (some (InboundMessage.sdkState (some s)))
      = ({ mst with state := some s }, []) :=
  ⟨rfl, notifyStateListeners_eq_map listeners s, by simp [handleMessage]⟩

/-- Witness for C9: two listeners, the first throwing; both are invoked and
the snapshot is stored. -/
theorem statePush_isolates_listener_exceptions_witness :
    (handleStatePush none
        [fun _ => Except.error "boom", fun _ => Except.ok ()] { tick := 7 }).1
      = some { tick := 7 } ∧
    (handleStatePush none
        [fun _ => Except.error "boom", fun _ => Except.ok ()] { tick := 7 }).2
      = [Except.error "boom", Except.ok ()] ∧
    handleMessage initialState (some (InboundMessage.sdkState (some { tick := 7 })))
      = ({ initialState with state := some { tick := 7 } }, []) :=
  statePush_isolates_listener_exceptions none
    [fun _ => Except.error "boom", fun _ => Except.ok ()] { tick := 7 } initialState
    ⟨0, by decide⟩ "boom" rfl

/-- Result of JSON.parse on the raw inbound string, as the try/catch at the
top of handleMessage sees it: the parse may throw (caught, the handler
returns), or succeed with JSON null — the raw strings "null" and " null" do
this — after which the message.type access throws a TypeError that nothing
catches, or succeed with any other value, on which the property accesses are
safe and the type field discriminates as InboundMessage. -/
inductive ParsedInbound
  | parseFailure
  | parsedNull
  | parsedMessage (msg : InboundMessage)
deriving DecidableEq, Repr

/-- handleMessage over the full parse outcome: `some` is a normal return
with the updated state and the settlements performed; `none` is the abrupt
completion by the uncaught TypeError thrown at message.type when the parse
produced JSON null.  The throw happens before any state access, so no field
is changed and no future is settled on that path — the call just does not
return normally. -/
def handleRawMessage (st : SDKState) (p : ParsedInbound) :
    Option (SDKState × List Settlement) :=
  match p with
  | ParsedInbound.parseFailure => some (st, [])
  | ParsedInbound.parsedNull => none
  | ParsedInbound.parsedMessage msg => some (handleMessage st (some msg))

/-- Counterexample to C10 as stated: the raw message string whose parse
result is JSON null — the string "null" — is valid JSON with a type that is
none of sdk_state, sdk_action_result and sdk_error, yet handleMessage does
not return normally on it: JSON.parse succeeds, so the catch does not fire,
and the message.type access throws an uncaught TypeError (the absence of a
normal return value in the model). -/
theorem handleMessage_null_counterexample :
    handleRawMessage initialState ParsedInbound.parsedNull = none := rfl

/-- C10 (amended): an inbound raw message that fails to parse, or parses to
a non-null value whose type is none of sdk_state, sdk_action_result and
sdk_error, or lacks the field its branch requires, or carries an action id
with no matching PendingAction, leaves handleMessage a no-op: it returns
normally with the state unchanged — same latest snapshot, same pending map,
same connection state — and settles no future.  The one exception is the
raw string parsing to JSON null, on which the type access throws an
uncaught TypeError instead of returning normally (state still unchanged,
nothing settled, since the throw precedes every branch). -/
theorem handleRawMessage_unknown_noop (st : SDKState) :
    (handleRawMessage st ParsedInbound.parseFailure = some (st, [])) ∧
    (handleRawMessage st (ParsedInbound.parsedMessage InboundMessage.otherType)
      = some (st, [])) ∧
    (handleRawMessage st (ParsedInbound.parsedMessage (InboundMessage.sdkState none))
      = some (st, [])) ∧
    (∀ r, handleRawMessage st
        (ParsedInbound.parsedMessage (InboundMessage.sdkActionResult none r))
      = some (st, [])) ∧
    (∀ e, handleRawMessage st
        (ParsedInbound.parsedMessage (InboundMessage.sdkError none e))
      = some (st, [])) ∧
    (∀ id r, id ∉ st.pendingActions →
      handleRawMessage st
          (ParsedInbound.parsedMessage (InboundMessage.sdkActionResult (some id) r))
        = some (st, [])) ∧
    (∀ id e, id ∉ st.pendingActions →
      handleRawMessage st
          (ParsedInbound.parsedMessage (InboundMessage.sdkError (some id) e))
        = some (st, [])) ∧
    (handleRawMessage st ParsedInbound.parsedNull = none) := by
  refine ⟨rfl, rfl, rfl, fun r => rfl, fun e => rfl,
    fun id r hm => ?_, fun id e hm => ?_, rfl⟩
  · simp [handleRawMessage, handleMessage, hm]
  · simp [handleRawMessage, handleMessage, hm]

/-- Witness for C10 (amended): an acknowledgement for an id that was never
registered returns normally and is a no-op on the fresh SDK state. -/
theorem handleRawMessage_unknown_noop_witness :
    handleRawMessage initialState
        (ParsedInbound.parsedMessage
          (InboundMessage.sdkActionResult (some "ghost") (some { ok := true })))
      = some (initialState, []) :=
  (handleRawMessage_unknown_noop initialState).2.2.2.2.2.1 "ghost" (some { ok := true })
    (by decide)
